import Mathlib

/-!
# A shallow embedding of the `large_vcs` storage engine

This file embeds the repository state machine of `src/large_vcs/__init__.py`
(class `LargeVCS`) into Lean and settles the frozen claims about it.

Modelling conventions:
* The on-disk state (manifest files under `patches/`, the `current.json`
  pointer, the object store under `files/`, and the materialized working
  tree) is a `Repo` record.  A JSON manifest object is an association list
  `Patch` with unique keys in insertion order, mirroring Python `dict`
  semantics.
* File content is abstracted by its SHA-256 fingerprint: `hash_file` is a
  deterministic function of the bytes, so a file is modelled as its
  `(relative path, fingerprint)` pair.
* Python raises; mutations performed before the raise persist.  So every
  operation returns `Repo × Option VcsError` - the state at exit (partial
  on failure) together with `none` on success or the raised error.
* The worker pool (`Pool(4)` with `imap_unordered`) is modelled by an
  explicit serialization of its tasks: the completion-order list is an
  input (`withHash` for the hash phase), and store/link tasks are folded
  in the given order.  A `KeyboardInterrupt` observed by the coordinator
  during a pool phase is modelled by `cancelAt = some k`: the first `k`
  tasks of that phase ran, then the coordinator terminates the pool,
  joins it and re-raises (the `except KeyboardInterrupt` blocks in
  `add`/`restore`; workers themselves run `signal.SIG_IGN` via
  `initializer`, so only the coordinator observes the interrupt).
-/

namespace LargeVCS

/-- Errors raised by the Python code (assertions, OS errors, interrupt). -/
inductive VcsError where
  | patchAlreadyExists
  | patchNotFound
  | cannotDropCurrentPatch
  | permissionError
  | fileNotFound
  | fileExists
  | attributeError
  | keyboardInterrupt
deriving Repr, DecidableEq

/-- A manifest (`patches/<tag>.json`): a JSON object mapping fingerprint to
relative path, keys unique, in insertion order (Python `dict`). -/
abbrev Patch := List (String × String)

/-- Python `patch.keys()` in walk order. -/
def patchKeys (p : Patch) : List String := p.map (fun e => e.1)

/-- Python `patch.values()`. -/
def patchValues (p : Patch) : List String := p.map (fun e => e.2)

/-- Dict access `patch[k]` as an `Option` (`None` when the key is absent). -/
def patchLookup (p : Patch) (k : String) : Option String :=
  (p.find? (fun e => e.1 == k)).map (fun e => e.2)

/-- The durable repository state.
* `patches`: tag to manifest, the files under `<repo>/patches/`;
* `current`: the tag stored in `current.json`, `none` when the file is absent;
* `store`: the objects under `<repo>/files/`, fingerprint with its
  read-only bit (`save_to_repo` chmods to `stat.S_IREAD` after copying);
* `worktree`: the materialized current tree, relative path with the
  fingerprint of the object it is hardlinked to. -/
structure Repo where
  patches : List (String × Patch)
  current : Option String
  store : List (String × Bool)
  worktree : List (String × String)
deriving Repr, DecidableEq

/-- Method `get_patch`: load `patches/<tag>.json`, `None` if the file is missing. -/
def get_patch (repo : Repo) (tag : String) : Option Patch :=
  (repo.patches.find? (fun e => e.1 == tag)).map (fun e => e.2)

/-- Does an object with this fingerprint exist in `files/`
(`os.path.exists(dest_path)`)? -/
def storeHas (store : List (String × Bool)) (f : String) : Bool :=
  store.any (fun p => p.1 == f)

/-- Function `save_to_repo(src, dst)`: `shutil.copyfile` then chmod read-only.
`copyfile` opens the destination for writing, so if an object with this
fingerprint already exists and is read-only the copy raises
`PermissionError`; otherwise the bytes are written and the object is
marked read-only. -/
def save_to_repo (store : List (String × Bool)) (f : String) :
    Except VcsError (List (String × Bool)) :=
  if store.any (fun p => p.1 == f && p.2) then .error .permissionError
  else .ok ((store.filter (fun p => !(p.1 == f))) ++ [(f, true)])

/-- Phase 3 of `add` (`pool.imap_unordered(self._add_file, to_add)`),
serialized in the given completion order; the first failing task's error
is the one the coordinator observes, and earlier completed stores persist. -/
def saveFold (store : List (String × Bool)) :
    List (String × String) → List (String × Bool) × Option VcsError
  | [] => (store, none)
  | pr :: rest =>
    match save_to_repo store pr.2 with
    | .error e => (store, some e)
    | .ok s' => saveFold s' rest

/-- Python `dict` insertion/update: updating an existing key keeps its
position, a new key is appended. -/
def dictUpdate : Patch → String → String → Patch
  | [], k, v => [(k, v)]
  | e :: rest, k, v =>
    if e.1 == k then (k, v) :: rest else e :: dictUpdate rest k v

/-- The manifest build, `patch` as a dict comprehension keyed by checksum:
the dict comprehension over the hash results in the order they were
received from the pool; a later entry with the same checksum overwrites
the retained path. `withHash` entries are `(rel_path, checksum)`. -/
def buildPatch (withHash : List (String × String)) : Patch :=
  withHash.foldl (fun d pr => dictUpdate d pr.2 pr.1) []

/-- Method `add(target, tag)`.  `withHash` is the list of `(rel_path, checksum)`
hash results in pool completion order (a permutation of the `os.walk`
listing).  Steps, as in the source: assert the tag is fresh; hash
everything (pure); keep the results whose fingerprint is not yet stored
(`to_add`, computed against the store state before any copy); run the
store tasks; finally write the manifest.  `cancelAt = some k` models a
`KeyboardInterrupt` after `k` store tasks: the coordinator terminates and
joins the pool and re-raises, so the manifest is never written. -/
def addExec (repo : Repo) (tag : String) (withHash : List (String × String))
    (cancelAt : Option Nat) : Repo × Option VcsError :=
  if (get_patch repo tag).isSome then (repo, some .patchAlreadyExists)
  else
    let toAdd := withHash.filter (fun pr => !(storeHas repo.store pr.2))
    match cancelAt with
    | some k =>
      let res := saveFold repo.store (toAdd.take k)
      ({ repo with store := res.1 },
        some (match res.2 with
              | some e => e
              | none => VcsError.keyboardInterrupt))
    | none =>
      match saveFold repo.store toAdd with
      | (store', some e) => ({ repo with store := store' }, some e)
      | (store', none) =>
        ({ repo with store := store',
                     patches := repo.patches ++ [(tag, buildPatch withHash)] },
          none)

/-- Method `clean()`: no-op when `current.json` is absent; otherwise loads the
current manifest via `get_patch` and immediately calls `.items()` on it,
so a dangling current pointer raises `AttributeError` before anything is
touched.  On the good path the working tree is chmod-ed writable and
removed, every stored object is re-marked read-only, and `current.json`
is unlinked. -/
def clean (repo : Repo) : Repo × Option VcsError :=
  match repo.current with
  | none => (repo, none)
  | some ctag =>
    match get_patch repo ctag with
    | none => (repo, some .attributeError)
    | some _ =>
      ({ repo with worktree := [],
                   store := repo.store.map (fun p => (p.1, true)),
                   current := none },
        none)

/-- The garbage-collection loop inside `drop`: start from
`to_remove = set(patch.keys())`; for each surviving manifest compute
`used_checksums = set(other_patch.values())` - NOTE: `.values()`, the
relative paths - and `to_remove.difference_update(used_checksums)`;
`break` once `to_remove` is empty. -/
def gcCompute (toRemove : List String) : List Patch → List String
  | [] => toRemove
  | other :: rest =>
    let toRemove' := toRemove.filter (fun c => !((patchValues other).contains c))
    if toRemove'.isEmpty then toRemove' else gcCompute toRemove' rest

/-- The garbage-collection set as claim C3 states it: the fingerprints of
the dropped manifest that no remaining manifest still references
(spec-side definition, for comparison with `gcCompute`). -/
def gcReferencedSpec (dropped : Patch) (others : List Patch) : List String :=
  (patchKeys dropped).filter
    (fun c => !(others.any (fun o => (patchKeys o).contains c)))

/-- Method `drop(tag)`: assert the tag is not current, assert its manifest
exists, unlink the manifest file, compute the garbage set over the
surviving manifests - and only `print` it: the block that would chmod and
unlink the objects is commented out in the source, so the store is left
unchanged. -/
def drop (repo : Repo) (tag : String) : Repo × Option VcsError :=
  if repo.current == some tag then (repo, some .cannotDropCurrentPatch)
  else
    match get_patch repo tag with
    | none => (repo, some .patchNotFound)
    | some patch =>
      let patches' := repo.patches.filter (fun e => !(e.1 == tag))
      let toRemove := gcCompute (patchKeys patch) (patches'.map (fun e => e.2))
      let _ := toRemove
      ({ repo with patches := patches' }, none)

/-- The three-way diff of `restore` when neither `clean` nor a missing
current pointer applies: sets of manifest KEYS (fingerprints) are
compared; `addK = new_keys - current_keys`,
`setRO = current_keys - new_keys`, and the paths to unlink are the old
manifest's paths of the `setRO` fingerprints. -/
structure Diff where
  addK : List String
  del : List String
  setRO : List String
deriving Repr, DecidableEq

/-- Values `add`, `delete`, `set_read_only` as computed at lines 294-301 of the
source. -/
def restoreDiff (newKeys curKeys : List String) (curPatch : Patch) : Diff :=
  let addK := newKeys.filter (fun k => !(curKeys.contains k))
  let setRO := curKeys.filter (fun k => !(newKeys.contains k))
  let del := setRO.map (fun c => (patchLookup curPatch c).getD "")
  ⟨addK, del, setRO⟩

/-- The unlink loop of `restore` (`os.chmod(..., S_IWRITE); os.unlink`):
unlinking a path that is not in the working tree raises
`FileNotFoundError`; earlier unlinks persist.  (The `os.rmdir` pruning of
now-empty directories is not part of the modelled state.) -/
def unlinkFold (wt : List (String × String)) :
    List String → List (String × String) × Option VcsError
  | [] => (wt, none)
  | p :: rest =>
    if wt.any (fun e => e.1 == p) then
      unlinkFold (wt.filter (fun e => !(e.1 == p))) rest
    else (wt, some .fileNotFound)

/-- Loop `for checksum in set_read_only: os.chmod(files/checksum, S_IREAD)`:
chmod on a missing object raises `FileNotFoundError`. -/
def chmodROFold (store : List (String × Bool)) :
    List String → List (String × Bool) × Option VcsError
  | [] => (store, none)
  | c :: rest =>
    if store.any (fun p => p.1 == c) then
      chmodROFold (store.map (fun p => if p.1 == c then (p.1, true) else p)) rest
    else (store, some .fileNotFound)

/-- Method `_restore_file`: `os.makedirs(parent, exist_ok=True)` then
`os.link(files/checksum, current/rel_path)`; `os.link` raises
`FileNotFoundError` when the object is missing and `FileExistsError` when
the destination already exists.  Entries are `(checksum, rel_path)`. -/
def linkFold (store : List (String × Bool)) (wt : List (String × String)) :
    List (String × String) → List (String × String) × Option VcsError
  | [] => (wt, none)
  | pr :: rest =>
    if !(storeHas store pr.1) then (wt, some .fileNotFound)
    else if wt.any (fun e => e.1 == pr.2) then (wt, some .fileExists)
    else linkFold store (wt ++ [(pr.2, pr.1)]) rest

/-- The link phase plus the final pointer write of `restore`: the link
tasks run in the pool (`cancelAt = some k` interrupts after `k` links,
the coordinator terminates/joins the pool and re-raises), and only after
the pool drains is `current.json` overwritten with the new tag. -/
def linkPhase (r2 : Repo) (adds : List (String × String)) (cancelAt : Option Nat)
    (tag : String) : Repo × Option VcsError :=
  match cancelAt with
  | some k =>
    let lr := linkFold r2.store r2.worktree (adds.take k)
    ({ r2 with worktree := lr.1 },
      some (match lr.2 with
            | some e => e
            | none => VcsError.keyboardInterrupt))
  | none =>
    match linkFold r2.store r2.worktree adds with
    | (wt', some e) => ({ r2 with worktree := wt' }, some e)
    | (wt', none) => ({ r2 with worktree := wt', current := some tag }, none)

/-- Step 1 of `restore` after the no-op check: either tear down via
`clean()` (claiming every key of the new manifest for linking), or diff
against the current manifest.  `elif current:` opens
`patches/<current>.json` directly, so a dangling pointer raises
`FileNotFoundError` here; with no current pointer every new key is
linked. -/
def restorePrep (repo : Repo) (cl : Bool) (newKeys : List String) :
    Repo × Except VcsError Diff :=
  if cl then
    match clean repo with
    | (r, some e) => (r, .error e)
    | (r, none) => (r, .ok ⟨newKeys, [], []⟩)
  else
    match repo.current with
    | none => (repo, .ok ⟨newKeys, [], []⟩)
    | some ctag =>
      match get_patch repo ctag with
      | none => (repo, .error .fileNotFound)
      | some curPatch => (repo, .ok (restoreDiff newKeys (patchKeys curPatch) curPatch))

/-- The `if delete:` block of `restore`: unlink the old-only paths, then
re-mark the corresponding objects read-only; skipped entirely when
`delete` is empty. -/
def deletePhase (r1 : Repo) (d : Diff) : Repo × Option VcsError :=
  if d.del.isEmpty then (r1, none)
  else
    match unlinkFold r1.worktree d.del with
    | (wt', some e) => ({ r1 with worktree := wt' }, some e)
    | (wt', none) =>
      match chmodROFold r1.store d.setRO with
      | (st', some e) => ({ r1 with worktree := wt', store := st' }, some e)
      | (st', none) => ({ r1 with worktree := wt', store := st' }, none)

/-- Method `restore(tag, clean)`: assert the manifest exists; `Already on tag`
no-op when `tag == current` and not `clean`; then prep (clean or diff),
the delete phase, the parallel link phase, and finally the durable
`current.json` update. -/
def restoreExec (repo : Repo) (tag : String) (cl : Bool) (cancelAt : Option Nat) :
    Repo × Option VcsError :=
  match get_patch repo tag with
  | none => (repo, some .patchNotFound)
  | some patch =>
    if !cl && repo.current == some tag then (repo, none)
    else
      match restorePrep repo cl (patchKeys patch) with
      | (r1, .error e) => (r1, some e)
      | (r1, .ok d) =>
        let adds := d.addK.map (fun c => (c, (patchLookup patch c).getD ""))
        match deletePhase r1 d with
        | (r2, some e) => (r2, some e)
        | (r2, none) => linkPhase r2 adds cancelAt tag

end LargeVCS

namespace LargeVCS

/-! ## Concrete repositories used by closed theorems -/

/-- Two manifests: `A` is the only one referencing fingerprint `x`;
`B` references `y`.  Both objects are stored. -/
def repoC1 : Repo :=
  { patches := [("A", [("x", "xt")]), ("B", [("y", "yt")])],
    current := none, store := [("x", true), ("y", true)], worktree := [] }

/-- A renamed file with unchanged content: `v1` holds fingerprint `h` at
path `a`, `v2` holds the same fingerprint at path `b`; the tree is on
`v1`. -/
def repoC2 : Repo :=
  { patches := [("v1", [("h", "a")]), ("v2", [("h", "b")])],
    current := some "v1", store := [("h", true)], worktree := [("a", "h")] }

/-- Repository on `v1`, about to `restore("v2", clean=True)`. -/
def repoC4 : Repo :=
  { patches := [("v1", [("h1", "a")]), ("v2", [("h2", "b")])],
    current := some "v1", store := [("h1", true), ("h2", true)],
    worktree := [("a", "h1")] }

/-- A freshly initialized, empty repository. -/
def repoC5 : Repo := { patches := [], current := none, store := [], worktree := [] }

/-- An incremental switch from `v1` to `v2`: object `h1` (path `a`) is
old-only, `h2` (path `b`) is common, `h3` (path `c`) is new-only. -/
def repoC2w : Repo :=
  { patches := [("v1", [("h1", "a"), ("h2", "b")]), ("v2", [("h2", "b"), ("h3", "c")])],
    current := some "v1", store := [("h1", true), ("h2", true), ("h3", true)],
    worktree := [("a", "h1"), ("b", "h2")] }

/-! ## Claim theorems -/

/-- C1: the claim says `drop("A")` deletes from the object store the
objects referenced only by the dropped manifest, here `x`.  The code
removes the manifest and computes the garbage set, but the deletion block
is commented out in the source: after `drop repoC1 "A"` succeeds, object
`x` is still in the store, although only `B` survives and `B` does not
reference `x`. -/
theorem c1_drop_does_not_delete_unreferenced_objects :
    (drop repoC1 "A").2 = none ∧
    (drop repoC1 "A").1.patches = [("B", [("y", "yt")])] ∧
    (drop repoC1 "A").1.store = repoC1.store := by decide

/-- C3: the garbage-collection loop is meant to remove from the candidate
set every fingerprint a surviving manifest still references, but the code
subtracts `set(other_patch.values())` - the relative paths - instead of
the keys.  With dropped manifest `{h: "at"}` and surviving manifest
`{h: "bt"}` (fingerprint `h` still referenced), the code keeps `h` in the
to-remove set while the claimed set is empty. -/
theorem c3_gc_subtracts_paths_instead_of_fingerprints :
    gcCompute (patchKeys [("h", "at")]) [[("h", "bt")]] = ["h"] ∧
    gcReferencedSpec [("h", "at")] [[("h", "bt")]] = [] := by decide

/-- C5: adding two files `a`, `b` with byte-identical content (fingerprint
`h`) under one tag.  The dedup check (`os.path.exists(dest_path)`) runs
over the whole batch before any store task, so both files are scheduled;
in the serialization where `a` is stored first, the object becomes
read-only and the second `shutil.copyfile` raises `PermissionError`, so
`add` aborts: one object is stored but no manifest is written, against
the claim that this add succeeds with one object and one manifest
entry. -/
theorem c5_duplicate_content_in_one_batch_fails :
    addExec repoC5 "v1" [("a", "h"), ("b", "h")] none =
      ({ repoC5 with store := [("h", true)] }, some VcsError.permissionError) := by
  decide

/-- C7: dropping the tag named by the Current Pointer fails with the
`Can't delete patch ... as it's the current one` assertion, which is the
first statement of `drop` after `ensure_repo`; the returned state is the
input state, so every manifest and every stored object is intact. -/
theorem c7_drop_current_tag_fails_without_change (repo : Repo) (tag : String)
    (h : repo.current = some tag) :
    drop repo tag = (repo, some VcsError.cannotDropCurrentPatch) := by
  simp [drop, h]

/-- Witness for C7 at a concrete repository. -/
theorem c7_witness :
    drop repoC2 "v1" = (repoC2, some VcsError.cannotDropCurrentPatch) :=
  c7_drop_current_tag_fails_without_change repoC2 "v1" (by decide)

/-- C8: `add` asserts that no manifest for the tag exists before walking,
hashing or storing anything; when the tag is taken it fails with
`PatchAlreadyExists` and returns the state unchanged, whatever the hash
results or cancellation behavior would have been. -/
theorem c8_add_duplicate_tag_fails_without_change (repo : Repo) (tag : String)
    (p : Patch) (h : get_patch repo tag = some p)
    (withHash : List (String × String)) (cancelAt : Option Nat) :
    addExec repo tag withHash cancelAt = (repo, some VcsError.patchAlreadyExists) := by
  simp [addExec, h]

/-- Witness for C8 at a concrete repository. -/
theorem c8_witness :
    addExec repoC2 "v1" [("z", "hz")] none =
      (repoC2, some VcsError.patchAlreadyExists) :=
  c8_add_duplicate_tag_fails_without_change repoC2 "v1" [("h", "a")] (by decide)
    [("z", "hz")] none

/-- C9: `restore(tag, clean=False)` when `tag` already equals the Current
Pointer takes the `Already on tag` fast path and mutates nothing: the
returned state is the input state (and if the manifest were missing the
preceding assertion would fail, also before any mutation). -/
theorem c9_restore_current_tag_is_noop (repo : Repo) (tag : String)
    (h : repo.current = some tag) (cancelAt : Option Nat) :
    (restoreExec repo tag false cancelAt).1 = repo := by
  cases hp : get_patch repo tag with
  | none => simp [restoreExec, hp]
  | some patch => simp [restoreExec, hp, h]

/-- Witness for C9 at a concrete repository. -/
theorem c9_witness : (restoreExec repoC2 "v1" false none).1 = repoC2 :=
  c9_restore_current_tag_is_noop repoC2 "v1" (by decide) none

/-- C10: when `current.json` names a tag with no manifest, `get_patch`
returns `None` and `clean` immediately calls `.items()` on it, raising
`AttributeError` before the working tree is walked, before `rmtree`, and
before `current.json` is unlinked: the state is returned unchanged. -/
theorem c10_clean_with_dangling_pointer_raises_before_mutation
    (repo : Repo) (ctag : String)
    (hc : repo.current = some ctag) (hp : get_patch repo ctag = none) :
    clean repo = (repo, some VcsError.attributeError) := by
  simp [clean, hc, hp]

/-- Witness for C10 at a concrete repository whose pointer names a
manifest that does not exist. -/
theorem c10_witness :
    clean { patches := [("B", [("y", "yt")])], current := some "gone",
            store := [("y", true)], worktree := [] } =
      ({ patches := [("B", [("y", "yt")])], current := some "gone",
         store := [("y", true)], worktree := [] },
        some VcsError.attributeError) :=
  c10_clean_with_dangling_pointer_raises_before_mutation _ "gone" (by decide) (by decide)

end LargeVCS

namespace LargeVCS

theorem patchLookup_dictUpdate_self (d : Patch) (k v : String) :
    patchLookup (dictUpdate d k v) k = some v := by
  induction d with
  | nil => simp [dictUpdate, patchLookup]
  | cons e rest ih =>
    by_cases h : (e.1 == k) = true
    · simp [dictUpdate, h, patchLookup]
    · simp only [Bool.not_eq_true] at h
      simp [dictUpdate, h, patchLookup, List.find?] at ih ⊢
      simpa [patchLookup] using ih

theorem patchLookup_dictUpdate_ne (d : Patch) (k v q : String)
    (h : (q == k) = false) :
    patchLookup (dictUpdate d k v) q = patchLookup d q := by
  have hkq : (k == q) = false := by
    rw [beq_eq_false_iff_ne] at h ⊢
    exact fun hk => h hk.symm
  induction d with
  | nil => simp [dictUpdate, patchLookup, hkq]
  | cons e rest ih =>
    by_cases he : (e.1 == k) = true
    · have heq : e.1 = k := eq_of_beq he
      simp [dictUpdate, he, patchLookup, List.find?, hkq, heq]
    · simp only [Bool.not_eq_true] at he
      simp only [dictUpdate, he, Bool.false_eq_true, if_false]
      simp [patchLookup, List.find?] at ih ⊢
      cases hq : (e.1 == q) with
      | true => simp [hq]
      | false => simpa [hq] using ih

theorem getLast?_cons_form {α : Type} (a : α) (l : List α) :
    (a :: l).getLast? =
      match l.getLast? with
      | some b => some b
      | none => some a := by
  induction l generalizing a with
  | nil => rfl
  | cons b m ih =>
    rw [List.getLast?_cons_cons]
    rw [ih b]
    cases m.getLast? <;> rfl

theorem buildPatch_lookup_aux (l : List (String × String)) (h : String) :
    ∀ d : Patch,
      patchLookup (l.foldl (fun d pr => dictUpdate d pr.2 pr.1) d) h =
        match (l.filter (fun pr => pr.2 == h)).getLast? with
        | some pr => some pr.1
        | none => patchLookup d h := by
  induction l with
  | nil => intro d; simp
  | cons pr l ih =>
    intro d
    rw [List.foldl_cons, ih (dictUpdate d pr.2 pr.1)]
    cases hp : (pr.2 == h) with
    | true =>
      have hpe : pr.2 = h := eq_of_beq hp
      rw [List.filter_cons_of_pos (by simp [hp]), getLast?_cons_form]
      cases hg : (l.filter (fun pr => pr.2 == h)).getLast? with
      | some q => simp
      | none => simp [← hpe, patchLookup_dictUpdate_self]
    | false =>
      rw [List.filter_cons_of_neg (by simp [hp])]
      cases hg : (l.filter (fun pr => pr.2 == h)).getLast? with
      | some q => simp
      | none =>
        have hh : (h == pr.2) = false := by
          rw [beq_eq_false_iff_ne] at hp ⊢
          exact fun hk => hp hk.symm
        simp [patchLookup_dictUpdate_ne _ _ _ _ hh]

/-- C6 amended: the manifest entry retained for a fingerprint is the one
of the LAST hash result with that fingerprint in pool completion order. -/
theorem c6_last_completion_order_writer_wins
    (withHash : List (String × String)) (h : String) :
    patchLookup (buildPatch withHash) h =
      ((withHash.filter (fun pr => pr.2 == h)).getLast?).map (fun pr => pr.1) := by
  rw [buildPatch, buildPatch_lookup_aux]
  cases hg : (withHash.filter (fun pr => pr.2 == h)).getLast? with
  | some q => simp
  | none => simp [patchLookup]

/-- C6 counterexample. -/
theorem c6_counterexample :
    List.Perm [("a", "h"), ("b", "h")] [("b", "h"), ("a", "h")] ∧
    buildPatch [("a", "h"), ("b", "h")] ≠ buildPatch [("b", "h"), ("a", "h")] := by
  decide

end LargeVCS

namespace LargeVCS

theorem clean_patches (repo : Repo) : (clean repo).1.patches = repo.patches := by
  unfold clean
  split
  · rfl
  · split <;> rfl

theorem clean_ok_current (repo : Repo) (h : (clean repo).2 = none) :
    (clean repo).1.current = none := by
  unfold clean at *
  split at h
  · next hc => simp [hc]
  · split at h
    · simp at h
    · simp

theorem clean_error_value (repo : Repo) (e : VcsError)
    (h : (clean repo).2 = some e) : e = VcsError.attributeError := by
  unfold clean at h
  split at h
  · simp at h
  · split at h
    · simp at h; exact h.symm
    · simp at h

theorem restorePrep_patches (repo : Repo) (cl : Bool) (nk : List String) :
    (restorePrep repo cl nk).1.patches = repo.patches := by
  unfold restorePrep
  split
  · split
    · next r e hcl => have := clean_patches repo; rw [hcl] at this; exact this
    · next r hcl => have := clean_patches repo; rw [hcl] at this; exact this
  · split
    · rfl
    · split <;> rfl

theorem restorePrep_ok_current (repo : Repo) (cl : Bool) (nk : List String)
    (r : Repo) (d : Diff) (h : restorePrep repo cl nk = (r, .ok d)) :
    r.current = (if cl then none else repo.current) := by
  unfold restorePrep at h
  split at h
  · next hcl =>
    split at h
    · simp at h
    · next r' hc =>
      have h1 : r' = r := congrArg Prod.fst h
      have := clean_ok_current repo (by rw [hc])
      rw [hc] at this
      simp_all
  · next hcl =>
    simp only [Bool.not_eq_true] at hcl
    split at h
    · simp_all
    · split at h
      · simp at h
      · simp_all

theorem restorePrep_error_value (repo : Repo) (cl : Bool) (nk : List String)
    (r : Repo) (e : VcsError) (h : restorePrep repo cl nk = (r, .error e)) :
    e = VcsError.attributeError ∨ e = VcsError.fileNotFound := by
  unfold restorePrep at h
  split at h
  · split at h
    · next r' e' hc =>
      have : e' = e := by simp_all
      left
      rw [← this]
      exact clean_error_value repo e' (by rw [hc])
    · simp at h
  · split at h
    · simp at h
    · split at h
      · right; simp_all
      · simp at h

theorem deletePhase_preserve (r1 : Repo) (d : Diff) :
    (deletePhase r1 d).1.patches = r1.patches ∧
    (deletePhase r1 d).1.current = r1.current := by
  unfold deletePhase
  split
  · exact ⟨rfl, rfl⟩
  · split
    · exact ⟨rfl, rfl⟩
    · split <;> exact ⟨rfl, rfl⟩

theorem linkPhase_cancel_preserve (r2 : Repo) (adds : List (String × String))
    (k : Nat) (tag : String) :
    (linkPhase r2 adds (some k) tag).1.patches = r2.patches ∧
    (linkPhase r2 adds (some k) tag).1.current = r2.current := by
  unfold linkPhase
  exact ⟨rfl, rfl⟩

/-- C4 amended: when a `KeyboardInterrupt` is observed during the
parallel phase, the coordinator terminates and joins the workers and
re-raises; no manifest file has been written for the in-progress tag, and
the Current Pointer is unchanged for `add` and for `restore` with
`clean=False` - but `restore` with `clean=True` has already cleared the
pointer during its tear-down, before the parallel phase started. -/
theorem c4_cancelled_operation_not_committed
    (repo : Repo) (tag : String) (withHash : List (String × String))
    (cl : Bool) (k : Nat) :
    ((addExec repo tag withHash (some k)).2 = some VcsError.keyboardInterrupt →
      (addExec repo tag withHash (some k)).1.patches = repo.patches ∧
      (addExec repo tag withHash (some k)).1.current = repo.current) ∧
    ((restoreExec repo tag cl (some k)).2 = some VcsError.keyboardInterrupt →
      (restoreExec repo tag cl (some k)).1.patches = repo.patches ∧
      (restoreExec repo tag cl (some k)).1.current =
        (if cl then none else repo.current)) := by
  constructor
  · intro _
    unfold addExec
    split
    · exact ⟨rfl, rfl⟩
    · exact ⟨rfl, rfl⟩
  · intro hI
    cases hg : get_patch repo tag with
    | none => rw [restoreExec, hg] at hI; simp at hI
    | some patch =>
      by_cases hcond : (!cl && repo.current == some tag) = true
      · rw [restoreExec, hg] at hI
        simp only [hcond, if_true] at hI
        simp at hI
      · have hcondb : (!cl && repo.current == some tag) = false := by
          simpa using hcond
        obtain ⟨r1, res1, h1⟩ :
            ∃ a b, restorePrep repo cl (patchKeys patch) = (a, b) := ⟨_, _, rfl⟩
        rw [restoreExec, hg] at hI ⊢
        simp only [hcondb, Bool.false_eq_true, if_false, h1] at hI ⊢
        cases res1 with
        | error e =>
          simp only at hI
          have he : e = VcsError.keyboardInterrupt := by simp_all
          rcases restorePrep_error_value repo cl (patchKeys patch) r1 e h1 with h2 | h2 <;>
            simp [h2] at he
        | ok d =>
          have hprep := restorePrep_patches repo cl (patchKeys patch)
          have hprepc := restorePrep_ok_current repo cl (patchKeys patch) r1 d h1
          rw [h1] at hprep
          obtain ⟨r2, res2, h2⟩ : ∃ a b, deletePhase r1 d = (a, b) := ⟨_, _, rfl⟩
          have hdel := deletePhase_preserve r1 d
          rw [h2] at hdel
          simp only [h2] at hI ⊢
          cases res2 with
          | some e =>
            simp only at hI ⊢
            exact ⟨hdel.1.trans hprep, hdel.2.trans hprepc⟩
          | none =>
            simp only at hI ⊢
            have hlink := linkPhase_cancel_preserve r2
              (d.addK.map (fun c => (c, (patchLookup patch c).getD ""))) k tag
            exact ⟨hlink.1.trans (hdel.1.trans hprep),
                   hlink.2.trans (hdel.2.trans hprepc)⟩

/-- C4 counterexample: `restore("v2", clean=True)` from current `v1`,
interrupted during the parallel link phase, leaves the Current Pointer
cleared (the tear-down already unlinked `current.json`), not unchanged as
the claim states. -/
theorem c4_counterexample :
    repoC4.current = some "v1" ∧
    (restoreExec repoC4 "v2" true (some 0)).2 = some VcsError.keyboardInterrupt ∧
    (restoreExec repoC4 "v2" true (some 0)).1.current ≠ repoC4.current := by
  decide

/-- Witness for C4's amended theorem at a concrete cancelled restore. -/
theorem c4_witness :
    (restoreExec repoC4 "v2" false (some 0)).1.patches = repoC4.patches ∧
    (restoreExec repoC4 "v2" false (some 0)).1.current =
      (if false then none else repoC4.current) :=
  (c4_cancelled_operation_not_committed repoC4 "v2" [("z", "hz")] false 0).2 (by decide)

end LargeVCS

namespace LargeVCS

/-- C2 counterexample: a file renamed without a content change.  `v1` has
fingerprint `h` at path `a`, `v2` has the same fingerprint at path `b`.
Path `a` is in `v1` and not in `v2`, path `b` is in `v2` and not in `v1`,
yet `restore("v2")` from `v1` unlinks nothing and links nothing: the diff
is over fingerprints, both key sets are `{h}`, and the worktree still
holds `a` (and no `b`) afterwards. -/
theorem c2_counterexample :
    patchValues [("h", "a")] = ["a"] ∧
    patchValues [("h", "b")] = ["b"] ∧
    restoreExec repoC2 "v2" false none =
      ({ repoC2 with current := some "v2" }, none) := by
  decide

theorem any_filter_eq_false {α : Type} (l : List α) (f g : α → Bool)
    (h : l.any g = false) : (l.filter f).any g = false := by
  rw [List.any_eq_false] at h ⊢
  intro x hx
  exact h x (List.mem_of_mem_filter hx)

theorem unlinkFold_ok (paths : List String) :
    ∀ wt : List (String × String), paths.Nodup →
      (∀ p ∈ paths, wt.any (fun e => e.1 == p) = true) →
      unlinkFold wt paths =
        (wt.filter (fun e => !(paths.contains e.1)), none) := by
  induction paths with
  | nil =>
    intro wt _ _
    simp [unlinkFold]
  | cons p rest ih =>
    intro wt hnd hin
    have hp : wt.any (fun e => e.1 == p) = true := hin p (by simp)
    rw [unlinkFold, if_pos hp]
    have hrest : ∀ q ∈ rest,
        (wt.filter (fun e => !(e.1 == p))).any (fun e => e.1 == q) = true := by
      intro q hq
      have hq' := hin q (by simp [hq])
      rw [List.any_eq_true] at hq' ⊢
      obtain ⟨e, he, heq⟩ := hq'
      refine ⟨e, List.mem_filter.mpr ⟨he, ?_⟩, heq⟩
      have hqp : q ≠ p := by
        intro hc
        subst hc
        exact (List.nodup_cons.mp hnd).1 hq
      have : e.1 = q := by simpa using heq
      simp [this, hqp]
    rw [ih _ (List.nodup_cons.mp hnd).2 hrest]
    rw [List.filter_filter]
    congr 1
    apply List.filter_congr
    intro e _
    simp only [List.contains_cons, Bool.not_or, Bool.and_comm]

theorem chmod_map_any (store : List (String × Bool)) (c f : String) :
    ((store.map (fun p => if p.1 == c then (p.1, true) else p)).any
        (fun p => p.1 == f)) = store.any (fun p => p.1 == f) := by
  induction store with
  | nil => rfl
  | cons e rest ih =>
    by_cases h : (e.1 == c) = true
    · simp only [List.map_cons, List.any_cons, h, if_true, ih]
    · simp only [Bool.not_eq_true] at h
      simp only [List.map_cons, List.any_cons, h, Bool.false_eq_true, if_false, ih]

theorem chmodROFold_fst_any (cs : List String) :
    ∀ (store : List (String × Bool)) (f : String),
      ((chmodROFold store cs).1).any (fun p => p.1 == f) =
        store.any (fun p => p.1 == f) := by
  induction cs with
  | nil => intro store f; rfl
  | cons c rest ih =>
    intro store f
    rw [chmodROFold]
    by_cases h : store.any (fun p => p.1 == c) = true
    · rw [if_pos h, ih, chmod_map_any]
    · rw [if_neg h]

theorem chmodROFold_none (cs : List String) :
    ∀ store : List (String × Bool),
      (∀ c ∈ cs, store.any (fun p => p.1 == c) = true) →
      (chmodROFold store cs).2 = none := by
  induction cs with
  | nil => intro store _; rfl
  | cons c rest ih =>
    intro store hin
    rw [chmodROFold, if_pos (hin c (by simp))]
    refine ih _ ?_
    intro q hq
    rw [chmod_map_any]
    exact hin q (by simp [hq])

theorem linkFold_ok (adds : List (String × String)) (store : List (String × Bool)) :
    ∀ wt : List (String × String),
      (∀ pr ∈ adds, storeHas store pr.1 = true) →
      (∀ pr ∈ adds, wt.any (fun e => e.1 == pr.2) = false) →
      (adds.map (fun pr => pr.2)).Nodup →
      linkFold store wt adds =
        (wt ++ adds.map (fun pr => (pr.2, pr.1)), none) := by
  induction adds with
  | nil => intro wt _ _ _; simp [linkFold]
  | cons pr rest ih =>
    intro wt hst hwt hnd
    rw [linkFold]
    rw [if_neg (by simp [hst pr (by simp)])]
    rw [if_neg (by simp [hwt pr (by simp)])]
    have hrest : ∀ q ∈ rest,
        (wt ++ [(pr.2, pr.1)]).any (fun e => e.1 == q.2) = false := by
      intro q hq
      rw [List.any_append]
      have h1 : wt.any (fun e => e.1 == q.2) = false := hwt q (by simp [hq])
      have h2 : (pr.2 == q.2) = false := by
        rw [beq_eq_false_iff_ne]
        intro hc
        have hmem : pr.2 ∈ rest.map (fun pr => pr.2) :=
          List.mem_map.mpr ⟨q, hq, hc.symm⟩
        simp only [List.map_cons, List.nodup_cons] at hnd
        exact hnd.1 hmem
      simp [h1, h2]
    rw [ih _ (fun q hq => hst q (by simp [hq])) hrest
        (by simpa using (List.nodup_cons.mp (by simpa using hnd)).2)]
    simp

end LargeVCS

namespace LargeVCS

/-- C2 amended: the three-way diff of an incremental `restore` is taken
on FINGERPRINTS, not relative paths: exactly the old-manifest paths of
fingerprints present in the old manifest but absent from the new one are
unlinked, exactly the new-manifest paths of fingerprints present in the
new manifest but absent from the old one are hardlinked, and worktree
entries whose fingerprint appears in both manifests are left untouched in
place (even when their paths differ).  Hypotheses: the repository is on
`ctag` with both manifests present, and the worktree/store are in the
sane state `restore` relies on (the paths to unlink exist in the tree and
are distinct, the objects to link or re-protect exist, the paths to link
are fresh and distinct). -/
theorem c2_restore_diffs_by_fingerprint
    (repo : Repo) (tag ctag : String) (patch curPatch : Patch) (d : Diff)
    (hcur : repo.current = some ctag)
    (hne : (ctag == tag) = false)
    (hold : get_patch repo ctag = some curPatch)
    (hnew : get_patch repo tag = some patch)
    (hd : restoreDiff (patchKeys patch) (patchKeys curPatch) curPatch = d)
    (hdelnodup : d.del.Nodup)
    (hdelin : ∀ p ∈ d.del, repo.worktree.any (fun e => e.1 == p) = true)
    (hsetro : ∀ c ∈ d.setRO, repo.store.any (fun p => p.1 == c) = true)
    (haddstore : ∀ c ∈ d.addK, storeHas repo.store c = true)
    (haddnew : ∀ c ∈ d.addK,
        repo.worktree.any (fun e => e.1 == (patchLookup patch c).getD "") = false)
    (haddnodup : (d.addK.map (fun c => (patchLookup patch c).getD "")).Nodup) :
    (restoreExec repo tag false none).2 = none ∧
    (restoreExec repo tag false none).1.worktree =
      (repo.worktree.filter (fun e => !(d.del.contains e.1))) ++
        d.addK.map (fun c => ((patchLookup patch c).getD "", c)) ∧
    (restoreExec repo tag false none).1.current = some tag ∧
    (restoreExec repo tag false none).1.patches = repo.patches := by
  have hcond : (!false && repo.current == some tag) = false := by
    rw [hcur]
    simpa using hne
  have hprep : restorePrep repo false (patchKeys patch) = (repo, .ok d) := by
    rw [restorePrep]
    simp [hcur, hold, hd]
  set adds := d.addK.map (fun c => (c, (patchLookup patch c).getD "")) with hadds
  have haddsmap : adds.map (fun pr => (pr.2, pr.1)) =
      d.addK.map (fun c => ((patchLookup patch c).getD "", c)) := by
    rw [hadds, List.map_map]
    rfl
  have haddsnd : (adds.map (fun pr => pr.2)).Nodup := by
    rw [hadds, List.map_map]
    exact haddnodup
  by_cases hdl : d.del.isEmpty = true
  · -- no old-only fingerprints: the delete phase is skipped entirely
    have hdnil : d.del = [] := by
      cases hde : d.del with
      | nil => rfl
      | cons a l => rw [hde] at hdl; simp [List.isEmpty] at hdl
    have hdelete : deletePhase repo d = (repo, none) := by
      rw [deletePhase, if_pos hdl]
    have hlink : linkFold repo.store repo.worktree adds =
        (repo.worktree ++ adds.map (fun pr => (pr.2, pr.1)), none) := by
      refine linkFold_ok adds repo.store repo.worktree ?_ ?_ haddsnd
      · intro pr hpr
        obtain ⟨c, hc, hpr'⟩ := List.mem_map.mp hpr
        rw [← hpr']
        exact haddstore c hc
      · intro pr hpr
        obtain ⟨c, hc, hpr'⟩ := List.mem_map.mp hpr
        rw [← hpr']
        exact haddnew c hc
    have hmain : restoreExec repo tag false none =
        ({ repo with
            worktree := repo.worktree ++ adds.map (fun pr => (pr.2, pr.1)),
            current := some tag }, none) := by
      rw [restoreExec, hnew]
      simp only [hcond, Bool.false_eq_true, if_false, hprep, hdelete]
      rw [linkPhase]
      simp only [hlink]
    rw [hmain]
    refine ⟨rfl, ?_, rfl, rfl⟩
    rw [haddsmap, hdnil]
    simp
  · -- old-only fingerprints exist: unlink them, re-protect their objects
    have hunlink := unlinkFold_ok d.del repo.worktree hdelnodup hdelin
    have hchmod2 := chmodROFold_none d.setRO repo.store hsetro
    have hchmod : chmodROFold repo.store d.setRO =
        ((chmodROFold repo.store d.setRO).1, none) := by
      rw [← hchmod2]
    have hdelete : deletePhase repo d =
        ({ repo with
            worktree := repo.worktree.filter (fun e => !(d.del.contains e.1)),
            store := (chmodROFold repo.store d.setRO).1 }, none) := by
      rw [deletePhase, if_neg hdl, hunlink]
      rw [hchmod]
    have hlink : linkFold (chmodROFold repo.store d.setRO).1
        (repo.worktree.filter (fun e => !(d.del.contains e.1))) adds =
        (repo.worktree.filter (fun e => !(d.del.contains e.1)) ++
          adds.map (fun pr => (pr.2, pr.1)), none) := by
      refine linkFold_ok adds _ _ ?_ ?_ haddsnd
      · intro pr hpr
        obtain ⟨c, hc, hpr'⟩ := List.mem_map.mp hpr
        rw [← hpr']
        show storeHas (chmodROFold repo.store d.setRO).1 c = true
        rw [storeHas, chmodROFold_fst_any]
        exact haddstore c hc
      · intro pr hpr
        obtain ⟨c, hc, hpr'⟩ := List.mem_map.mp hpr
        rw [← hpr']
        exact any_filter_eq_false _ _ _ (haddnew c hc)
    have hmain : restoreExec repo tag false none =
        ({ repo with
            worktree := repo.worktree.filter (fun e => !(d.del.contains e.1)) ++
              adds.map (fun pr => (pr.2, pr.1)),
            store := (chmodROFold repo.store d.setRO).1,
            current := some tag }, none) := by
      rw [restoreExec, hnew]
      simp only [hcond, Bool.false_eq_true, if_false, hprep, hdelete]
      rw [linkPhase]
      simp only [hlink]
    rw [hmain]
    exact ⟨rfl, by rw [haddsmap], rfl, rfl⟩

/-- Witness for C2's amended theorem: switching from
`v1 = {h1: a, h2: b}` to `v2 = {h2: b, h3: c}` unlinks exactly `a`,
links exactly `c`, and leaves `b` in place. -/
theorem c2_witness :
    (restoreExec repoC2w "v2" false none).2 = none ∧
    (restoreExec repoC2w "v2" false none).1.worktree =
      (repoC2w.worktree.filter (fun e => !((["a"] : List String).contains e.1))) ++
        ["h3"].map (fun c =>
          ((patchLookup [("h2", "b"), ("h3", "c")] c).getD "", c)) ∧
    (restoreExec repoC2w "v2" false none).1.current = some "v2" ∧
    (restoreExec repoC2w "v2" false none).1.patches = repoC2w.patches := by
  have h := c2_restore_diffs_by_fingerprint repoC2w "v2" "v1"
    [("h2", "b"), ("h3", "c")] [("h1", "a"), ("h2", "b")]
    ⟨["h3"], ["a"], ["h1"]⟩
    (by decide) (by decide) (by decide) (by decide) (by decide) (by decide)
    (by decide) (by decide) (by decide) (by decide) (by decide)
  exact h

end LargeVCS
